import Mathlib

/-!
# Verification of the alpaca1 intraday trading bot core

A shallow embedding, in Lean 4, of the decision core of the `alpaca1`
gap mean-reversion trading bot:

* `src/indicators.py` — gap percentage, rolling mean/std bands, VWAP;
* `src/risk.py`       — daily trade counter and position sizing;
* `src/strategy.py`   — entry and exit signal evaluation;
* `src/bot.py`        — the per-cycle state machine (`tick`).

Conventions of the embedding:

* Python `float` values are idealised as real numbers (`ℝ`); NaN can arise
  in the source only from a pandas sample standard deviation over fewer
  than two points, and that case is modelled explicitly where it occurs.
* A pandas `DataFrame` of bars is a `BarFrame`: a list of rows
  (oldest → newest) together with flags recording which optional columns
  the frame carries.
* The external collaborators of `tick` (data source, execution gateway,
  market calendar) are modelled by passing their per-cycle answers in as
  explicit inputs (`TickIn`); the orders `tick` submits are reported as
  explicit outputs (`TickOut`).
* The trading-day key is a `ℕ`; the source uses a `%Y-%m-%d` date string
  that it only ever compares for equality.
-/

namespace Alpaca1

/-! ## Configuration (`src/config.py`, `StrategyConfig`)

Only the fields consumed by the verified core are modelled; `symbol`,
`entry_window_minutes` and `dry_run` are consumed by the excluded
collaborators (the calendar answer and the order results are `tick`
inputs here). -/

structure StrategyConfig where
  max_trades_per_day : ℤ
  risk_pct : ℝ
  gap_threshold : ℝ
  band_lookback : ℕ
  band_mult : ℝ
  stop_pct : ℝ
  use_vwap_exit : Bool

/-! ## Bar windows (pandas `DataFrame` rows of `get_recent_bars`) -/

/-- One row of the bar frame.  The `vwap` field holds the value of the
optional per-bar `vwap` column for this row; `none` stands for a NaN
entry (the source guards it with `np.isnan`). -/
structure Bar where
  high : ℝ
  low : ℝ
  close : ℝ
  volume : ℝ
  vwap : Option ℝ

/-- A pandas `DataFrame` of bars: the rows, oldest → newest, plus flags for
the column checks the source performs (`"vwap" in bars.columns` and
`{"high","low","close","volume"}.issubset(bars.columns)`). -/
structure BarFrame where
  rows : List Bar
  hasVwapCol : Bool
  hasOhlcv : Bool

/-! ## Indicators (`src/indicators.py`) -/

/-- `compute_gap_pct` — overnight gap as a signed percentage. -/
noncomputable def compute_gap_pct (prior_close today_open : ℝ) : ℝ :=
  if prior_close ≤ 0 then 0
  else (today_open - prior_close) / prior_close

/-- Sample mean of a list of closes (`pandas.Series.rolling(...).mean()`,
last window). -/
noncomputable def sampleMean (xs : List ℝ) : ℝ := xs.sum / xs.length

/-- Sample variance with one delta degree of freedom
(`pandas.Series.rolling(...).std()` squared, last window). -/
noncomputable def sampleVar (xs : List ℝ) : ℝ :=
  (xs.map (fun x => (x - sampleMean xs) ^ 2)).sum / ((xs.length : ℝ) - 1)

/-- Result of `compute_bands`. -/
structure Bands where
  mean : ℝ
  std : ℝ
  upper : ℝ
  lower : ℝ

/-- `compute_bands` — rolling volatility bands on the close column.

The source takes the last value of `closes.rolling(window=lookback)`'s
mean and std, which over a frame of `len ≥ lookback` bars is the sample
mean and (ddof = 1) sample standard deviation of the most recent
`lookback` closes, and returns `None` if either is NaN.  Over real data
the rolling mean is always finite, and the rolling std is NaN exactly
when the window holds fewer than two points, i.e. when `lookback < 2`
(for `lookback = 0` pandas raises instead of returning; theorems below
assume `1 ≤ lookback`). -/
noncomputable def compute_bands (bars : BarFrame) (lookback : ℕ) (mult : ℝ) :
    Option Bands :=
  if bars.rows.length < lookback then none
  else
    let closes := bars.rows.map Bar.close
    let recent := closes.drop (closes.length - lookback)
    let m := sampleMean recent
    let s := Real.sqrt (sampleVar recent)
    if lookback < 2 then none
    else some { mean := m, std := s, upper := m + mult * s, lower := m - mult * s }

/-- Total volume of a frame (the last entry of `bars["volume"].cumsum()`). -/
def totalVolume (bars : BarFrame) : ℝ :=
  (bars.rows.map Bar.volume).sum

/-- Total typical-price × volume of a frame (the last entry of
`(typical * bars["volume"]).cumsum()` where
`typical = (high + low + close) / 3`). -/
noncomputable def totalTypicalVolume (bars : BarFrame) : ℝ :=
  (bars.rows.map (fun b => (b.high + b.low + b.close) / 3 * b.volume)).sum

/-- `compute_vwap` — cumulative VWAP of the frame.

If the frame has a `vwap` column, the source reads the last row's value
and returns it when it is not NaN.  Otherwise it falls back to the manual
cumulative typical-price VWAP, returning `None` when the required columns
are missing or the cumulative volume is zero.  On an *empty* frame the
source raises `IndexError` at `iloc[-1]` whenever it reaches a column
read; theorems below therefore assume a nonempty frame. -/
noncomputable def compute_vwap (bars : BarFrame) : Option ℝ :=
  let fallback : Option ℝ :=
    if bars.hasOhlcv then
      if totalVolume bars = 0 then none
      else some (totalTypicalVolume bars / totalVolume bars)
    else none
  if bars.hasVwapCol then
    match bars.rows.getLast? with
    | some b =>
      match b.vwap with
      | some v => some v
      | none => fallback
    | none => fallback
  else fallback

/-! ## Risk manager (`src/risk.py`)

The mutable `RiskManager` holds only `trades_today`; it is threaded
through the state machine as an explicit `ℤ` value. -/

/-- `RiskManager.reset_daily`. -/
def reset_daily : ℤ := 0

/-- `RiskManager.can_trade`. -/
def can_trade (cfg : StrategyConfig) (trades_today : ℤ) : Bool :=
  trades_today < cfg.max_trades_per_day

/-- `RiskManager.record_trade`. -/
def record_trade (trades_today : ℤ) : ℤ := trades_today + 1

/-- `RiskManager.compute_shares` — risk-based position size, capped at 10 %
of equity, floored at 0. -/
noncomputable def compute_shares (cfg : StrategyConfig) (equity entry_price : ℝ) : ℤ :=
  if entry_price ≤ 0 ∨ equity ≤ 0 then 0
  else
    let risk_amount := equity * cfg.risk_pct
    let loss_per_share := entry_price * cfg.stop_pct
    if loss_per_share ≤ 0 then 0
    else
      let shares := ⌊risk_amount / loss_per_share⌋
      let max_shares_by_equity := ⌊equity * 0.10 / entry_price⌋
      max (min shares max_shares_by_equity) 0

/-! ## Strategy (`src/strategy.py`) -/

inductive Direction
  | long
  | short
deriving DecidableEq

inductive ExitReason
  | mean_reversion
  | vwap_reversion
  | stop_loss
  | end_of_day
deriving DecidableEq

structure EntrySignal where
  direction : Direction
  price : ℝ
  gap_pct : ℝ
  band_value : ℝ

structure ExitSignal where
  reason : ExitReason
  price : ℝ

/-- `evaluate_entry` — check whether the gap mean-reversion entry
conditions are met. -/
noncomputable def evaluate_entry (cfg : StrategyConfig) (bars : BarFrame)
    (latest_price prior_close today_open : ℝ) : Option EntrySignal :=
  let gap_pct := compute_gap_pct prior_close today_open
  if |gap_pct| < cfg.gap_threshold then none
  else
    match compute_bands bars cfg.band_lookback cfg.band_mult with
    | none => none
    | some bands =>
      -- Down gap → expect reversion upward → buy at lower band.
      if gap_pct < 0 ∧ latest_price ≤ bands.lower then
        some { direction := Direction.long, price := latest_price,
               gap_pct := gap_pct, band_value := bands.lower }
      -- Up gap → expect reversion downward → sell at upper band.
      else if gap_pct > 0 ∧ latest_price ≥ bands.upper then
        some { direction := Direction.short, price := latest_price,
               gap_pct := gap_pct, band_value := bands.upper }
      else none

/-- The VWAP-reversion block of `evaluate_exit`, reached whenever the
mean-reversion checks do not return (both with bands present and with
bands absent); factored out as a named function. -/
noncomputable def vwapExitCheck (cfg : StrategyConfig) (bars : BarFrame)
    (latest_price : ℝ) (direction : Direction) : Option ExitSignal :=
  if cfg.use_vwap_exit then
    match compute_vwap bars with
    | some vwap =>
      if direction = Direction.long ∧ latest_price ≥ vwap then
        some { reason := ExitReason.vwap_reversion, price := latest_price }
      else if direction = Direction.short ∧ latest_price ≤ vwap then
        some { reason := ExitReason.vwap_reversion, price := latest_price }
      else none
    | none => none
  else none

/-- `evaluate_exit` — check whether exit conditions are met for an open
position.  The source checks, in order: the forced end-of-day flag, the
stop loss (the `else` of its long/short split covers exactly `SHORT`),
mean reversion against the rolling mean, and — when enabled — VWAP
reversion. -/
noncomputable def evaluate_exit (cfg : StrategyConfig) (bars : BarFrame)
    (latest_price entry_price : ℝ) (direction : Direction)
    (force_eod : Bool := false) : Option ExitSignal :=
  if force_eod then
    some { reason := ExitReason.end_of_day, price := latest_price }
  -- Stop loss.
  else if direction = Direction.long ∧
      latest_price ≤ entry_price * (1 - cfg.stop_pct) then
    some { reason := ExitReason.stop_loss, price := latest_price }
  else if direction = Direction.short ∧
      latest_price ≥ entry_price * (1 + cfg.stop_pct) then
    some { reason := ExitReason.stop_loss, price := latest_price }
  else
    -- Mean reversion.
    match compute_bands bars cfg.band_lookback cfg.band_mult with
    | some bands =>
      if direction = Direction.long ∧ latest_price ≥ bands.mean then
        some { reason := ExitReason.mean_reversion, price := latest_price }
      else if direction = Direction.short ∧ latest_price ≤ bands.mean then
        some { reason := ExitReason.mean_reversion, price := latest_price }
      else vwapExitCheck cfg bars latest_price direction
    | none => vwapExitCheck cfg bars latest_price direction

/-! ## State machine (`src/bot.py`) -/

inductive BotState
  | idle
  | armed
  | in_trade
  | locked
deriving DecidableEq

/-- `FillInfo` as consumed by `tick` — only the optional average fill
price is read (`order_id`, `symbol`, `side`, `qty` are write-only echo
fields of the execution layer). -/
structure Fill where
  filled_avg_price : Option ℝ

/-- The mutable bot context `_Ctx`. -/
structure Ctx where
  state : BotState
  entry_price : Option ℝ
  direction : Option Direction
  trade_qty : ℤ
  prior_close : Option ℝ
  today_open : Option ℝ
  last_trading_day : Option ℕ

/-- The answers of the external collaborators for one cycle: what the
data, execution and calendar calls inside `tick` would return. -/
structure TickIn where
  today : ℕ                   -- `now_et().strftime("%Y-%m-%d")`, as a day key
  market_open : Bool          -- `is_market_open()`
  prior_close_fetch : Option ℝ -- `get_prior_close(...)`
  today_open_fetch : Option ℝ  -- `get_today_open(...)`
  until_close : ℝ             -- `time_until_close_seconds()`
  bars : BarFrame             -- `get_recent_bars(...)`
  latest_fetch : Option ℝ     -- `get_latest_price(...)`
  within_entry_window : Bool  -- `is_within_entry_window(...)`
  equity : ℝ                  -- `get_account_equity(...)`
  entry_fill : Option Fill    -- `submit_entry_order(...)` result
  exit_fill : Option Fill     -- `submit_exit_order(...)` result

/-- The outcome of one cycle: the mutated context and trade counter, plus
which orders the cycle submitted. -/
structure TickOut where
  ctx : Ctx
  trades_today : ℤ
  submitted_entry : Bool
  submitted_exit : Bool
  flattened_all : Bool        -- `close_all_positions(...)` was called

def EOD_FLATTEN_BUFFER_SECONDS : ℝ := 300

/-- "New trading day detection" section of `tick`: on a date change,
clear the cached gap data and position bookkeeping, reset the daily
trade counter, and force the state to `IDLE`. -/
def dayReset (ctx₀ : Ctx) (trades₀ : ℤ) (inp : TickIn) : Ctx × ℤ :=
  if ctx₀.last_trading_day ≠ some inp.today then
    (⟨BotState.idle, none, none, 0, none, none, some inp.today⟩, reset_daily)
  else (ctx₀, trades₀)

/-- "Fetch gap data once per day" section of `tick`: fill each of
`prior_close` / `today_open` from the data collaborator when unset. -/
def fetchGap (ctx : Ctx) (inp : TickIn) : Ctx :=
  { ctx with
    prior_close :=
      if ctx.prior_close.isNone then inp.prior_close_fetch
      else ctx.prior_close,
    today_open :=
      if ctx.today_open.isNone then inp.today_open_fetch
      else ctx.today_open }

/-- "End-of-day flatten" section of `tick`: with an open position, submit
an exit order (whose result is not inspected) and clear the position
fields; in every case transition to `LOCKED`. -/
def tickEod (ctx : Ctx) (trades : ℤ) : TickOut :=
  if ctx.state = BotState.in_trade ∧ ctx.direction.isSome then
    let flat : Ctx :=
      { ctx with
        state := BotState.locked,
        entry_price := none,
        direction := none,
        trade_qty := 0 }
    ⟨flat, trades, false, true, false⟩
  else
    ⟨{ ctx with state := BotState.locked }, trades, false, false, false⟩

/-- "State: ARMED → look for entry" section of `tick`. -/
noncomputable def tickArmed (cfg : StrategyConfig) (ctx : Ctx) (trades : ℤ)
    (inp : TickIn) (latest_price : ℝ) : TickOut :=
  if ¬ can_trade cfg trades then
    ⟨{ ctx with state := BotState.locked }, trades, false, false, false⟩
  else if inp.within_entry_window = false then
    -- Outside entry window — waiting for exit or EOD.
    ⟨ctx, trades, false, false, false⟩
  else
    match evaluate_entry cfg inp.bars latest_price
        (ctx.prior_close.getD 0) (ctx.today_open.getD 0) with
    | none => ⟨ctx, trades, false, false, false⟩
    | some signal_entry =>
      -- Size the position.
      let qty := compute_shares cfg inp.equity latest_price
      if qty ≤ 0 then ⟨ctx, trades, false, false, false⟩
      else
        match inp.entry_fill with
        | none =>
          -- Entry order failed — staying ARMED.
          ⟨ctx, trades, true, false, false⟩
        | some fill =>
          let opened : Ctx :=
            { ctx with
              entry_price := some
                (match fill.filled_avg_price with
                 | some p => p
                 | none => latest_price),
              direction := some signal_entry.direction,
              trade_qty := qty,
              state := BotState.in_trade }
          ⟨opened, record_trade trades, true, false, false⟩

/-- "State: IN_TRADE → look for exit" section of `tick`. -/
noncomputable def tickInTrade (cfg : StrategyConfig) (ctx : Ctx)
    (trades : ℤ) (inp : TickIn) (latest_price : ℝ) : TickOut :=
  if ctx.entry_price.isNone || ctx.direction.isNone then
    -- IN_TRADE but missing entry_price/direction — forcing flat.
    ⟨{ ctx with state := BotState.armed }, trades, false, false, true⟩
  else
    match evaluate_exit cfg inp.bars latest_price
        (ctx.entry_price.getD 0) (ctx.direction.getD Direction.long) with
    | none => ⟨ctx, trades, false, false, false⟩
    | some _ =>
      match inp.exit_fill with
      | none =>
        -- Exit order failed — will retry next tick.
        ⟨ctx, trades, false, true, false⟩
      | some _ =>
        let cleared : Ctx :=
          { ctx with
            entry_price := none,
            direction := none,
            trade_qty := 0 }
        -- Back to ARMED (can take more trades if under limit).
        if can_trade cfg trades then
          ⟨{ cleared with state := BotState.armed }, trades, false, true, false⟩
        else
          ⟨{ cleared with state := BotState.locked }, trades, false, true, false⟩

/-- `tick` — a single iteration of the bot loop, with every call to an
external collaborator replaced by the corresponding `TickIn` field and
every order submission reported in `TickOut`.  The sections of the source
function are the named phase functions above. -/
noncomputable def tick (cfg : StrategyConfig) (ctx₀ : Ctx) (trades₀ : ℤ)
    (inp : TickIn) : TickOut :=
  let ctx : Ctx := (dayReset ctx₀ trades₀ inp).1
  let trades : ℤ := (dayReset ctx₀ trades₀ inp).2
  -- Pre-market / after-hours → IDLE.
  if inp.market_open = false then
    ⟨{ ctx with state := BotState.idle }, trades, false, false, false⟩
  else
    let ctx : Ctx := fetchGap ctx inp
    if ctx.prior_close.isNone || ctx.today_open.isNone then
      -- Cannot compute gap — missing price data.
      ⟨ctx, trades, false, false, false⟩
    else if inp.until_close ≤ EOD_FLATTEN_BUFFER_SECONDS then
      tickEod ctx trades
    -- State: IDLE → try to arm.
    else if ctx.state = BotState.idle then
      ⟨{ ctx with state := BotState.armed }, trades, false, false, false⟩
    -- State: LOCKED → no action.
    else if ctx.state = BotState.locked then
      ⟨ctx, trades, false, false, false⟩
    -- Fetch latest market data.
    else if inp.bars.rows.isEmpty then
      ⟨ctx, trades, false, false, false⟩
    else
      let latest_price : ℝ :=
        match inp.latest_fetch with
        | some p => p
        | none => (inp.bars.rows.map Bar.close).getLastD 0
      if ctx.state = BotState.armed then
        tickArmed cfg ctx trades inp latest_price
      else if ctx.state = BotState.in_trade then
        tickInTrade cfg ctx trades inp latest_price
      else
        -- No state matched: the source falls off the end of `tick`.
        ⟨ctx, trades, false, false, false⟩

/-! ## Specification predicates -/

/-- The all-or-nothing position invariant of `TradingContext`:
`direction`, `entryPrice` and `quantity > 0` are either all present or
all absent. -/
def PosInv (ctx : Ctx) : Prop :=
  (ctx.direction.isSome = true ∧ ctx.entry_price.isSome = true ∧
    0 < ctx.trade_qty) ∨
  (ctx.direction = none ∧ ctx.entry_price = none ∧ ctx.trade_qty = 0)

/-- The stop-loss condition of `evaluate_exit`. -/
def stopCond (cfg : StrategyConfig) (latest_price entry_price : ℝ)
    (direction : Direction) : Prop :=
  (direction = Direction.long ∧
    latest_price ≤ entry_price * (1 - cfg.stop_pct)) ∨
  (direction = Direction.short ∧
    latest_price ≥ entry_price * (1 + cfg.stop_pct))

/-- The mean-reversion condition of `evaluate_exit`. -/
def meanCond (cfg : StrategyConfig) (bars : BarFrame) (latest_price : ℝ)
    (direction : Direction) : Prop :=
  ∃ b, compute_bands bars cfg.band_lookback cfg.band_mult = some b ∧
    ((direction = Direction.long ∧ latest_price ≥ b.mean) ∨
     (direction = Direction.short ∧ latest_price ≤ b.mean))

/-- The VWAP-reversion condition of `evaluate_exit`. -/
def vwapCond (cfg : StrategyConfig) (bars : BarFrame) (latest_price : ℝ)
    (direction : Direction) : Prop :=
  cfg.use_vwap_exit = true ∧
  ∃ v, compute_vwap bars = some v ∧
    ((direction = Direction.long ∧ latest_price ≥ v) ∨
     (direction = Direction.short ∧ latest_price ≤ v))

/-- The Long emission condition of `evaluate_entry`. -/
def longEntryCond (cfg : StrategyConfig) (bars : BarFrame)
    (latest_price prior_close today_open : ℝ) : Prop :=
  cfg.gap_threshold ≤ |compute_gap_pct prior_close today_open| ∧
  compute_gap_pct prior_close today_open < 0 ∧
  ∃ b, compute_bands bars cfg.band_lookback cfg.band_mult = some b ∧
    latest_price ≤ b.lower

/-- The Short emission condition of `evaluate_entry`. -/
def shortEntryCond (cfg : StrategyConfig) (bars : BarFrame)
    (latest_price prior_close today_open : ℝ) : Prop :=
  cfg.gap_threshold ≤ |compute_gap_pct prior_close today_open| ∧
  0 < compute_gap_pct prior_close today_open ∧
  ∃ b, compute_bands bars cfg.band_lookback cfg.band_mult = some b ∧
    latest_price ≥ b.upper

/-! ## Shared concrete fixtures -/

/-- A flat bar: all prices equal to `c`, unit volume, no per-bar VWAP. -/
def mkBar (c : ℝ) : Bar := ⟨c, c, c, 1, none⟩

/-- A concrete configuration: 5 trades/day, 1 % risk, 0.5 % gap
threshold, 2-bar lookback, 1× band multiplier, 5 % stop, VWAP exit on. -/
noncomputable def cfg0 : StrategyConfig := ⟨5, 1/100, 1/200, 2, 1, 1/20, true⟩

/-- Two flat bars at price 100. -/
noncomputable def barsFlat100 : BarFrame := ⟨[mkBar 100, mkBar 100], false, true⟩

/-- Two flat bars at price 80. -/
noncomputable def barsFlat80 : BarFrame := ⟨[mkBar 80, mkBar 80], false, true⟩

/-! ## Theorems -/

/-- C7: `compute_gap_pct prior_close today_open` equals
`(today_open - prior_close) / prior_close` for every `prior_close > 0`,
has the same sign as `today_open - prior_close` in that case with
`compute_gap_pct c c = 0`, and returns `0` for every `prior_close ≤ 0`;
the function is total, so it never fails. -/
theorem compute_gap_pct_spec (prior_close today_open : ℝ) :
    (0 < prior_close →
      compute_gap_pct prior_close today_open
          = (today_open - prior_close) / prior_close ∧
      (0 < compute_gap_pct prior_close today_open ↔
        prior_close < today_open) ∧
      (compute_gap_pct prior_close today_open < 0 ↔
        today_open < prior_close) ∧
      (compute_gap_pct prior_close today_open = 0 ↔
        today_open = prior_close)) ∧
    compute_gap_pct prior_close prior_close = 0 ∧
    (prior_close ≤ 0 → compute_gap_pct prior_close today_open = 0) := by
  unfold compute_gap_pct
  refine ⟨fun h => ?_, ?_, fun h => if_pos h⟩
  · rw [if_neg (not_le.mpr h)]
    refine ⟨rfl, ?_, ?_, ?_⟩
    · rw [lt_div_iff₀ h, zero_mul, sub_pos]
    · rw [div_lt_iff₀ h, zero_mul, sub_neg]
    · rw [div_eq_zero_iff, sub_eq_zero]
      exact ⟨fun h1 => h1.elim id (fun h2 => absurd h2 (ne_of_gt h)),
             fun h1 => Or.inl h1⟩
  · by_cases h : prior_close ≤ 0
    · rw [if_pos h]
    · rw [if_neg h]
      simp

/-- C7 witness: at `prior_close = 100`, `today_open = 98` the gap is
`-1/50` and is negative, matching the sign of `98 - 100`. -/
theorem compute_gap_pct_spec_witness :
    compute_gap_pct 100 98 = -(1/50) ∧ compute_gap_pct 100 98 < 0 := by
  obtain ⟨heq, -, hneg, -⟩ := (compute_gap_pct_spec (100 : ℝ) 98).1 (by norm_num)
  refine ⟨?_, hneg.mpr (by norm_num)⟩
  rw [heq]
  norm_num

/-- C3: `compute_shares` always returns a non-negative integer; for every
`equity > 0` and `price > 0` the result is at most
`⌊equity * 0.10 / price⌋`; and it returns `0` whenever `equity ≤ 0`,
`price ≤ 0`, or the loss per share `price * stop_pct` is `≤ 0` — the
function is total, so there is no error path. -/
theorem compute_shares_spec (cfg : StrategyConfig) (equity price : ℝ) :
    0 ≤ compute_shares cfg equity price ∧
    (0 < equity → 0 < price →
      compute_shares cfg equity price ≤ ⌊equity * 0.10 / price⌋) ∧
    (equity ≤ 0 ∨ price ≤ 0 ∨ price * cfg.stop_pct ≤ 0 →
      compute_shares cfg equity price = 0) := by
  unfold compute_shares
  dsimp only
  refine ⟨?_, fun he hp => ?_, fun h => ?_⟩
  · split
    · exact le_refl 0
    · split
      · exact le_refl 0
      · exact le_max_right _ 0
  · rw [if_neg (by push_neg; exact ⟨hp, he⟩)]
    have hcap : (0 : ℤ) ≤ ⌊equity * 0.10 / price⌋ :=
      Int.floor_nonneg.mpr (div_nonneg (by nlinarith) hp.le)
    split
    · exact hcap
    · exact max_le (min_le_right _ _) hcap
  · by_cases h1 : price ≤ 0 ∨ equity ≤ 0
    · rw [if_pos h1]
    · rw [if_neg h1]
      push_neg at h1
      have hl : price * cfg.stop_pct ≤ 0 := by
        rcases h with h | h | h
        · exact absurd h (not_le.mpr h1.2)
        · exact absurd h (not_le.mpr h1.1)
        · exact h
      rw [if_pos hl]

/-- C3 witness: at `equity = 1000`, `price = 10` under `cfg0` the result
is non-negative and at most `⌊1000 * 0.10 / 10⌋`. -/
theorem compute_shares_spec_witness :
    (0 : ℝ) < 1000 ∧ (0 : ℝ) < 10 ∧
    0 ≤ compute_shares cfg0 1000 10 ∧
    compute_shares cfg0 1000 10 ≤ ⌊(1000 : ℝ) * 0.10 / 10⌋ := by
  have h := compute_shares_spec cfg0 1000 10
  exact ⟨by norm_num, by norm_num, h.1, h.2.1 (by norm_num) (by norm_num)⟩

/-- C6: `compute_bands bars lookback mult` is absent whenever the frame
holds fewer than `lookback` bars; otherwise (for `lookback ≥ 2`) it is
present with `mean` the sample mean and `std` the sample standard
deviation (one delta degree of freedom) of the most recent `lookback`
closes, `upper = mean + mult*std` and `lower = mean - mult*std`; and it
is absent — not zero — when the computed std is not a finite number,
which over real data happens exactly for a one-bar window (`lookback = 1`,
where the ddof-1 sample std is NaN). -/
theorem compute_bands_spec (bars : BarFrame) (lookback : ℕ) (mult : ℝ)
    (hlb : 1 ≤ lookback) :
    (bars.rows.length < lookback → compute_bands bars lookback mult = none) ∧
    (lookback = 1 → compute_bands bars lookback mult = none) ∧
    (2 ≤ lookback → lookback ≤ bars.rows.length →
      ∃ recent m s,
        recent = (bars.rows.map Bar.close).drop (bars.rows.length - lookback) ∧
        recent.length = lookback ∧
        m = recent.sum / (lookback : ℝ) ∧
        s = Real.sqrt
          ((recent.map fun x => (x - m) ^ 2).sum / ((lookback : ℝ) - 1)) ∧
        compute_bands bars lookback mult =
          some { mean := m, std := s, upper := m + mult * s,
                 lower := m - mult * s }) := by
  refine ⟨fun h => ?_, fun h => ?_, fun h2 hle => ?_⟩
  · unfold compute_bands
    rw [if_pos h]
  · unfold compute_bands
    dsimp only
    split
    · rfl
    · rw [if_pos (by omega)]
  · have hlen : ((bars.rows.map Bar.close).drop
        (bars.rows.length - lookback)).length = lookback := by
      rw [List.length_drop, List.length_map]
      omega
    refine ⟨_, _, _, rfl, hlen, rfl, rfl, ?_⟩
    unfold compute_bands
    dsimp only
    rw [if_neg (not_lt.mpr hle), if_neg (by omega)]
    simp only [sampleMean, sampleVar, List.length_map, hlen]

/-- C6 witness: closes `[1,2,3,4,5]` with `lookback = 5` give a present
band with mean `3` and squared std `5/2` (the ddof-1 sample variance
`10/4`), and `upper`/`lower` are `mean ± mult * std`. -/
theorem compute_bands_spec_witness :
    (1 : ℕ) ≤ 5 ∧
    ∃ b, compute_bands ⟨[mkBar 1, mkBar 2, mkBar 3, mkBar 4, mkBar 5],
          false, true⟩ 5 2 = some b ∧
      b.mean = 3 ∧ b.std ^ 2 = 5/2 ∧ 0 ≤ b.std ∧
      b.upper = 3 + 2 * b.std ∧ b.lower = 3 - 2 * b.std := by
  obtain ⟨recent, m, s, hrec, -, hm, hs, heq⟩ :=
    (compute_bands_spec ⟨[mkBar 1, mkBar 2, mkBar 3, mkBar 4, mkBar 5],
        false, true⟩ 5 2 (by norm_num)).2.2 (by norm_num) (by simp)
  have hrec5 : recent = [(1 : ℝ), 2, 3, 4, 5] := by
    rw [hrec]
    simp [mkBar]
  have hm3 : m = 3 := by
    rw [hm, hrec5]
    norm_num
  have hvar : ((recent.map fun x => (x - m) ^ 2).sum / ((5 : ℕ) - 1 : ℝ))
      = 5/2 := by
    rw [hrec5, hm3]
    norm_num
  refine ⟨by norm_num, _, heq, hm3, ?_, ?_, by rw [hm3], by rw [hm3]⟩
  · rw [hs, hvar, Real.sq_sqrt (by norm_num)]
  · rw [hs]
    exact Real.sqrt_nonneg _

/-- C9: `compute_vwap` returns the most recent bar's precomputed per-bar
VWAP when the `vwap` column is present and the value is finite; otherwise
it computes the cumulative volume-weighted typical price
`(high+low+close)/3` over the whole window, and it returns absent — not
an error — when the cumulative volume is zero or the required columns are
missing.  (On an empty frame the source raises `IndexError` at
`iloc[-1]`, so the window is assumed nonempty.) -/
theorem compute_vwap_spec (bars : BarFrame) (hne : bars.rows ≠ []) :
    (∀ b v, bars.rows.getLast? = some b → b.vwap = some v →
      bars.hasVwapCol = true → compute_vwap bars = some v) ∧
    ((bars.hasVwapCol = false ∨
        ∀ b, bars.rows.getLast? = some b → b.vwap = none) →
      (bars.hasOhlcv = true → totalVolume bars ≠ 0 →
        compute_vwap bars
          = some (totalTypicalVolume bars / totalVolume bars)) ∧
      (bars.hasOhlcv = true → totalVolume bars = 0 →
        compute_vwap bars = none) ∧
      (bars.hasOhlcv = false → compute_vwap bars = none)) := by
  constructor
  · intro b v hlast hvw hcol
    unfold compute_vwap
    simp only [hcol, hlast, hvw, if_true]
  · intro hfall
    have hred : compute_vwap bars =
        (if bars.hasOhlcv then
          if totalVolume bars = 0 then none
          else some (totalTypicalVolume bars / totalVolume bars)
        else none) := by
      unfold compute_vwap
      rcases hfall with hcol | hnan
      · simp [hcol]
      · rcases h : bars.hasVwapCol with _ | _
        · simp [h]
        · obtain ⟨b, hb⟩ :=
            Option.isSome_iff_exists.mp (List.getLast?_isSome.mpr hne)
          simp [h, hb, hnan b hb]
    refine ⟨fun hoh hvol => ?_, fun hoh hvol => ?_, fun hoh => ?_⟩
    · rw [hred, if_pos hoh, if_neg hvol]
    · rw [hred, if_pos hoh, if_pos hvol]
    · rw [hred]
      simp [hoh]

/-- C9 witness: two flat bars at 100 with unit volume, no `vwap` column:
the fallback cumulative typical-price VWAP is `200 / 2 = 100`. -/
theorem compute_vwap_spec_witness :
    compute_vwap barsFlat100 = some 100 := by
  have hvol : totalVolume barsFlat100 = 2 := by
    simp [totalVolume, barsFlat100, mkBar]
    norm_num
  have htp : totalTypicalVolume barsFlat100 = 200 := by
    simp [totalTypicalVolume, barsFlat100, mkBar]
    norm_num
  have h := ((compute_vwap_spec barsFlat100
      (by simp [barsFlat100])).2 (Or.inl rfl)).1 rfl (by rw [hvol]; norm_num)
  rw [h, hvol, htp]
  norm_num

/-- C4: `evaluate_entry` is mutually exclusive and gap-gated: no input
satisfies both the Long and the Short emission conditions; a Long signal
is emitted only when the gap is negative and the latest price is at or
below the lower band, a Short signal only when the gap is positive and
the latest price is at or above the upper band; and no signal is emitted
when `|gap| < gap_threshold` or when the bands are absent. -/
theorem evaluate_entry_spec (cfg : StrategyConfig) (bars : BarFrame)
    (latest_price prior_close today_open : ℝ) :
    ¬ (longEntryCond cfg bars latest_price prior_close today_open ∧
       shortEntryCond cfg bars latest_price prior_close today_open) ∧
    (∀ s, evaluate_entry cfg bars latest_price prior_close today_open = some s →
      s.direction = Direction.long →
      longEntryCond cfg bars latest_price prior_close today_open) ∧
    (∀ s, evaluate_entry cfg bars latest_price prior_close today_open = some s →
      s.direction = Direction.short →
      shortEntryCond cfg bars latest_price prior_close today_open) ∧
    (|compute_gap_pct prior_close today_open| < cfg.gap_threshold →
      evaluate_entry cfg bars latest_price prior_close today_open = none) ∧
    (compute_bands bars cfg.band_lookback cfg.band_mult = none →
      evaluate_entry cfg bars latest_price prior_close today_open = none) := by
  refine ⟨?_, ?_, ?_, fun h => ?_, fun h => ?_⟩
  · rintro ⟨⟨-, hneg, -⟩, ⟨-, hpos, -⟩⟩
    linarith
  · intro s hs hdir
    unfold evaluate_entry at hs
    dsimp only at hs
    by_cases hthr : |compute_gap_pct prior_close today_open| < cfg.gap_threshold
    · rw [if_pos hthr] at hs
      exact absurd hs (by simp)
    · rw [if_neg hthr] at hs
      rcases hb : compute_bands bars cfg.band_lookback cfg.band_mult with _ | b
      · rw [hb] at hs
        exact absurd hs (by simp)
      · simp only [hb] at hs
        by_cases hlong : compute_gap_pct prior_close today_open < 0 ∧
            latest_price ≤ b.lower
        · exact ⟨not_lt.mp hthr, hlong.1, b, hb, hlong.2⟩
        · rw [if_neg hlong] at hs
          by_cases hshort : compute_gap_pct prior_close today_open > 0 ∧
              latest_price ≥ b.upper
          · rw [if_pos hshort] at hs
            rw [← Option.some_inj.mp hs] at hdir
            exact absurd hdir (by simp)
          · rw [if_neg hshort] at hs
            exact absurd hs (by simp)
  · intro s hs hdir
    unfold evaluate_entry at hs
    dsimp only at hs
    by_cases hthr : |compute_gap_pct prior_close today_open| < cfg.gap_threshold
    · rw [if_pos hthr] at hs
      exact absurd hs (by simp)
    · rw [if_neg hthr] at hs
      rcases hb : compute_bands bars cfg.band_lookback cfg.band_mult with _ | b
      · rw [hb] at hs
        exact absurd hs (by simp)
      · simp only [hb] at hs
        by_cases hlong : compute_gap_pct prior_close today_open < 0 ∧
            latest_price ≤ b.lower
        · rw [if_pos hlong] at hs
          rw [← Option.some_inj.mp hs] at hdir
          exact absurd hdir (by simp)
        · rw [if_neg hlong] at hs
          by_cases hshort : compute_gap_pct prior_close today_open > 0 ∧
              latest_price ≥ b.upper
          · exact ⟨not_lt.mp hthr, hshort.1, b, hb, hshort.2⟩
          · rw [if_neg hshort] at hs
            exact absurd hs (by simp)
  · unfold evaluate_entry
    rw [if_pos h]
  · unfold evaluate_entry
    dsimp only
    split
    · rfl
    · simp only [h]

/-- C4 witness: with a zero gap (prior close = session open = 100), the
gap is below the threshold of `cfg0` and no signal is emitted. -/
theorem evaluate_entry_spec_witness :
    evaluate_entry cfg0 barsFlat100 100 100 100 = none := by
  refine (evaluate_entry_spec cfg0 barsFlat100 100 100 100).2.2.2.1 ?_
  have h : compute_gap_pct 100 100 = 0 := by
    unfold compute_gap_pct
    rw [if_neg (by norm_num)]
    norm_num
  rw [h]
  simp only [abs_zero, cfg0]
  norm_num

/-- The VWAP block fires exactly under `vwapCond`. -/
lemma vwapExitCheck_eq_some (cfg : StrategyConfig) (bars : BarFrame)
    (latest_price : ℝ) (direction : Direction)
    (h : vwapCond cfg bars latest_price direction) :
    vwapExitCheck cfg bars latest_price direction
      = some ⟨ExitReason.vwap_reversion, latest_price⟩ := by
  obtain ⟨hen, v, hv, hcase⟩ := h
  unfold vwapExitCheck
  rw [hen, if_pos rfl]
  simp only [hv]
  rcases hcase with ⟨hd, hge⟩ | ⟨hd, hle⟩
  · rw [if_pos ⟨hd, hge⟩]
  · rw [if_neg (by
      rintro ⟨hl, -⟩
      rw [hd] at hl
      exact absurd hl (by decide)), if_pos ⟨hd, hle⟩]

/-- The VWAP block yields nothing when `vwapCond` fails. -/
lemma vwapExitCheck_eq_none (cfg : StrategyConfig) (bars : BarFrame)
    (latest_price : ℝ) (direction : Direction)
    (h : ¬ vwapCond cfg bars latest_price direction) :
    vwapExitCheck cfg bars latest_price direction = none := by
  unfold vwapExitCheck
  rcases hen : cfg.use_vwap_exit with _ | _
  · rw [if_neg (by simp)]
  · rw [if_pos rfl]
    rcases hv : compute_vwap bars with _ | v
    · rfl
    · dsimp only
      rw [if_neg (fun hc => h ⟨hen, v, hv, Or.inl hc⟩),
        if_neg (fun hc => h ⟨hen, v, hv, Or.inr hc⟩)]

/-- C2: `evaluate_exit` checks its rules in strict priority order —
forced end-of-day, then stop-loss, then mean reversion, then VWAP
reversion — and the first matching rule determines the result; in
particular, whenever `force_eod` is false and the stop-loss condition
holds, the result is a `stop_loss` exit regardless of the other
conditions. -/
theorem evaluate_exit_spec (cfg : StrategyConfig) (bars : BarFrame)
    (latest_price entry_price : ℝ) (direction : Direction)
    (force_eod : Bool) :
    (force_eod = true →
      evaluate_exit cfg bars latest_price entry_price direction force_eod
        = some ⟨ExitReason.end_of_day, latest_price⟩) ∧
    (force_eod = false → stopCond cfg latest_price entry_price direction →
      evaluate_exit cfg bars latest_price entry_price direction force_eod
        = some ⟨ExitReason.stop_loss, latest_price⟩) ∧
    (force_eod = false → ¬ stopCond cfg latest_price entry_price direction →
      meanCond cfg bars latest_price direction →
      evaluate_exit cfg bars latest_price entry_price direction force_eod
        = some ⟨ExitReason.mean_reversion, latest_price⟩) ∧
    (force_eod = false → ¬ stopCond cfg latest_price entry_price direction →
      ¬ meanCond cfg bars latest_price direction →
      vwapCond cfg bars latest_price direction →
      evaluate_exit cfg bars latest_price entry_price direction force_eod
        = some ⟨ExitReason.vwap_reversion, latest_price⟩) ∧
    (force_eod = false → ¬ stopCond cfg latest_price entry_price direction →
      ¬ meanCond cfg bars latest_price direction →
      ¬ vwapCond cfg bars latest_price direction →
      evaluate_exit cfg bars latest_price entry_price direction force_eod
        = none) := by
  refine ⟨fun hf => ?_, fun hf hstop => ?_, fun hf hstop hmean => ?_,
    fun hf hstop hmean hvw => ?_, fun hf hstop hmean hvw => ?_⟩
  · unfold evaluate_exit
    rw [hf, if_pos rfl]
  · unfold evaluate_exit
    rw [hf]
    rcases hstop with ⟨hd, hle⟩ | ⟨hd, hge⟩
    · rw [if_neg (by simp), if_pos ⟨hd, hle⟩]
    · rw [if_neg (by simp), if_neg (by
        rintro ⟨hl, -⟩
        rw [hd] at hl
        exact absurd hl (by decide)), if_pos ⟨hd, hge⟩]
  · unfold evaluate_exit
    rw [hf, if_neg (by simp),
      if_neg (fun hc => hstop (Or.inl hc)),
      if_neg (fun hc => hstop (Or.inr hc))]
    obtain ⟨b, hb, hcase⟩ := hmean
    simp only [hb]
    rcases hcase with ⟨hd, hge⟩ | ⟨hd, hle⟩
    · rw [if_pos ⟨hd, hge⟩]
    · rw [if_neg (by
        rintro ⟨hl, -⟩
        rw [hd] at hl
        exact absurd hl (by decide)), if_pos ⟨hd, hle⟩]
  · unfold evaluate_exit
    rw [hf, if_neg (by simp),
      if_neg (fun hc => hstop (Or.inl hc)),
      if_neg (fun hc => hstop (Or.inr hc))]
    rcases hb : compute_bands bars cfg.band_lookback cfg.band_mult with _ | b
    · simp only [hb]
      exact vwapExitCheck_eq_some cfg bars latest_price direction hvw
    · simp only [hb]
      rw [if_neg (fun hc => hmean ⟨b, hb, Or.inl hc⟩),
        if_neg (fun hc => hmean ⟨b, hb, Or.inr hc⟩)]
      exact vwapExitCheck_eq_some cfg bars latest_price direction hvw
  · unfold evaluate_exit
    rw [hf, if_neg (by simp),
      if_neg (fun hc => hstop (Or.inl hc)),
      if_neg (fun hc => hstop (Or.inr hc))]
    rcases hb : compute_bands bars cfg.band_lookback cfg.band_mult with _ | b
    · simp only [hb]
      exact vwapExitCheck_eq_none cfg bars latest_price direction hvw
    · simp only [hb]
      rw [if_neg (fun hc => hmean ⟨b, hb, Or.inl hc⟩),
        if_neg (fun hc => hmean ⟨b, hb, Or.inr hc⟩)]
      exact vwapExitCheck_eq_none cfg bars latest_price direction hvw

/-- C2 witness: a long position entered at 100 with latest price 90 under
`cfg0` (5 % stop) over flat bars at 80 satisfies both the stop-loss
condition (90 ≤ 95) and the mean-reversion condition (90 ≥ band mean 80)
simultaneously, and `evaluate_exit` returns `stop_loss`. -/
theorem evaluate_exit_spec_witness :
    stopCond cfg0 90 100 Direction.long ∧
    meanCond cfg0 barsFlat80 90 Direction.long ∧
    evaluate_exit cfg0 barsFlat80 90 100 Direction.long false
      = some ⟨ExitReason.stop_loss, 90⟩ := by
  have hstop : stopCond cfg0 90 100 Direction.long := by
    left
    refine ⟨rfl, ?_⟩
    rw [cfg0]
    norm_num
  have hmean : meanCond cfg0 barsFlat80 90 Direction.long := by
    have hbands : compute_bands barsFlat80 cfg0.band_lookback cfg0.band_mult
        = some ⟨80, 0, 80, 80⟩ := by
      show compute_bands barsFlat80 2 1 = _
      have hm : sampleMean [(80 : ℝ), 80] = 80 := by
        unfold sampleMean
        norm_num
      have hv : sampleVar [(80 : ℝ), 80] = 0 := by
        unfold sampleVar
        rw [hm]
        norm_num
      unfold compute_bands
      rw [if_neg (by simp [barsFlat80])]
      dsimp only
      rw [if_neg (by norm_num)]
      rw [show barsFlat80.rows.map Bar.close = [(80 : ℝ), 80] from by
        simp [barsFlat80, mkBar]]
      simp [hm, hv]
    exact ⟨⟨80, 0, 80, 80⟩, hbands, Or.inl ⟨rfl, by norm_num⟩⟩
  exact ⟨hstop, hmean,
    (evaluate_exit_spec cfg0 barsFlat80 90 100 Direction.long false).2.1
      rfl hstop⟩

/-- The day-rollover reset preserves the position invariant. -/
lemma posInv_dayReset (ctx₀ : Ctx) (trades₀ : ℤ) (inp : TickIn)
    (h : PosInv ctx₀) : PosInv (dayReset ctx₀ trades₀ inp).1 := by
  unfold dayReset
  split
  · exact Or.inr ⟨rfl, rfl, rfl⟩
  · exact h

/-- The gap-data fetch touches only `prior_close` / `today_open`. -/
lemma posInv_fetchGap (ctx : Ctx) (inp : TickIn) (h : PosInv ctx) :
    PosInv (fetchGap ctx inp) := h

/-- The end-of-day flatten preserves the position invariant. -/
lemma posInv_tickEod (ctx : Ctx) (trades : ℤ) (h : PosInv ctx) :
    PosInv (tickEod ctx trades).ctx := by
  unfold tickEod
  dsimp only
  split
  · exact Or.inr ⟨rfl, rfl, rfl⟩
  · exact h

/-- The ARMED branch preserves the position invariant. -/
lemma posInv_tickArmed (cfg : StrategyConfig) (ctx : Ctx) (trades : ℤ)
    (inp : TickIn) (latest_price : ℝ) (h : PosInv ctx) :
    PosInv (tickArmed cfg ctx trades inp latest_price).ctx := by
  unfold tickArmed
  dsimp only
  repeat' split
  all_goals first
    | exact h
    | exact Or.inl ⟨rfl, rfl, by dsimp only; omega⟩

/-- The IN_TRADE branch preserves the position invariant. -/
lemma posInv_tickInTrade (cfg : StrategyConfig) (ctx : Ctx) (trades : ℤ)
    (inp : TickIn) (latest_price : ℝ) (h : PosInv ctx) :
    PosInv (tickInTrade cfg ctx trades inp latest_price).ctx := by
  unfold tickInTrade
  dsimp only
  repeat' split
  all_goals first
    | exact h
    | exact Or.inr ⟨rfl, rfl, rfl⟩

/-- C5: every cycle preserves the all-or-nothing position invariant:
if `direction`, `entry_price` and `trade_qty > 0` are all present or all
absent before `tick`, the same holds after `tick`, for every combination
of data-availability, signal, and order-fill outcomes. -/
theorem tick_preserves_position_invariant (cfg : StrategyConfig) (ctx : Ctx)
    (trades : ℤ) (inp : TickIn) (h : PosInv ctx) :
    PosInv (tick cfg ctx trades inp).ctx := by
  have h1 : PosInv (dayReset ctx trades inp).1 := posInv_dayReset ctx trades inp h
  have h2 : PosInv (fetchGap (dayReset ctx trades inp).1 inp) :=
    posInv_fetchGap _ inp h1
  unfold tick
  dsimp only
  repeat' split
  all_goals first
    | exact h1
    | exact h2
    | exact posInv_tickEod _ _ h2
    | exact posInv_tickArmed _ _ _ _ _ h2
    | exact posInv_tickInTrade _ _ _ _ _ h2

/-- C5 witness: the invariant holds (all fields absent) for a concrete
idle context, and is preserved by a concrete market-closed cycle. -/
theorem tick_preserves_position_invariant_witness :
    PosInv ⟨BotState.idle, none, none, 0, none, none, none⟩ ∧
    PosInv (tick cfg0 ⟨BotState.idle, none, none, 0, none, none, none⟩ 0
      ⟨0, false, none, none, 10000, barsFlat100, none, false, 0, none,
        none⟩).ctx := by
  have hinv : PosInv ⟨BotState.idle, none, none, 0, none, none, none⟩ :=
    Or.inr ⟨rfl, rfl, rfl⟩
  exact ⟨hinv, tick_preserves_position_invariant cfg0 _ 0 _ hinv⟩

/-- `tickEod` always leaves the state `LOCKED`. -/
lemma tickEod_state (ctx : Ctx) (trades : ℤ) :
    (tickEod ctx trades).ctx.state = BotState.locked := by
  unfold tickEod
  dsimp only
  split <;> rfl

/-- A concrete `LOCKED` context with cached gap data, on day 0. -/
noncomputable def lockedCtx : Ctx :=
  ⟨BotState.locked, none, none, 0, some 100, some 98, some 0⟩

/-- A same-day cycle input with the market closed. -/
noncomputable def closedInp : TickIn :=
  ⟨0, false, none, none, 10000, barsFlat100, none, false, 0, none, none⟩

/-- A same-day cycle input with the market open, far from the close. -/
noncomputable def openInp : TickIn :=
  ⟨0, true, none, none, 10000, barsFlat100, none, false, 0, none, none⟩

/-- C1 counterexample: `Locked` is not terminal for the calendar day as
claimed — a cycle on the same date as `last_trading_day` whose only
peculiarity is that the market is closed (the source's "pre-market /
after-hours" branch) moves the state from `LOCKED` to `IDLE` without any
day-rollover reset. -/
theorem locked_terminal_counterexample :
    lockedCtx.state = BotState.locked ∧
    lockedCtx.last_trading_day = some closedInp.today ∧
    (tick cfg0 lockedCtx 0 closedInp).ctx.state = BotState.idle := by
  refine ⟨rfl, rfl, ?_⟩
  have hdr : dayReset lockedCtx 0 closedInp = (lockedCtx, 0) := by
    unfold dayReset
    rw [if_neg (by simp [lockedCtx, closedInp])]
  unfold tick
  dsimp only
  rw [hdr]
  rfl

/-- C1 (amended): once the state is `Locked`, every cycle of the same
calendar day with the market open leaves it `Locked`; the only exits from
`Locked` are the day-rollover reset and the market-closed branch, which
forces `Idle`. -/
theorem locked_persists_same_day (cfg : StrategyConfig) (ctx : Ctx)
    (trades : ℤ) (inp : TickIn)
    (hlock : ctx.state = BotState.locked)
    (hday : ctx.last_trading_day = some inp.today) :
    (inp.market_open = true →
      (tick cfg ctx trades inp).ctx.state = BotState.locked) ∧
    (inp.market_open = false →
      (tick cfg ctx trades inp).ctx.state = BotState.idle) := by
  have hdr : dayReset ctx trades inp = (ctx, trades) := by
    unfold dayReset
    rw [if_neg (by simp [hday])]
  have hfs : (fetchGap ctx inp).state = BotState.locked := hlock
  refine ⟨fun hm => ?_, fun hm => ?_⟩
  · unfold tick
    dsimp only
    rw [hdr]
    dsimp only
    rw [if_neg (by simp [hm])]
    split
    · exact hlock
    · split
      · exact tickEod_state _ _
      · simp [hfs]
  · unfold tick
    dsimp only
    rw [hdr]
    dsimp only
    rw [if_pos hm]

/-- C1 (amended) witness: a concrete same-day, market-open cycle leaves
the concrete locked context `Locked`. -/
theorem locked_persists_same_day_witness :
    (tick cfg0 lockedCtx 0 openInp).ctx.state = BotState.locked :=
  (locked_persists_same_day cfg0 lockedCtx 0 openInp rfl rfl).1 rfl

/-- A concrete `ARMED` context with cached gap data, on day 0. -/
noncomputable def armedCtx : Ctx :=
  ⟨BotState.armed, none, none, 0, some 100, some 98, some 0⟩

/-- A same-day, market-open, in-window cycle input whose latest price 100
touches the lower band of `barsFlat100`, with the entry order failing. -/
noncomputable def entryInp : TickIn :=
  ⟨0, true, none, none, 10000, barsFlat100, some 100, true, 100000, none,
   none⟩

/-- C8: an entry is counted and recorded atomically only after a
confirmed fill.  On an `ARMED` cycle that reaches the entry-order
submission (all guard hypotheses below), a failed submission
(`entry_fill = none`) leaves the state `ARMED` and `trades_today`
unchanged; a fill sets `entry_price` (the fill price, or the latest price
for a price-less fill), `direction` and a positive `trade_qty`,
increments `trades_today` exactly once, and transitions to `IN_TRADE`. -/
theorem entry_fill_gates_recording (cfg : StrategyConfig) (ctx : Ctx)
    (trades : ℤ) (inp : TickIn) (lp : ℝ) (sig : EntrySignal)
    (hday : ctx.last_trading_day = some inp.today)
    (hopen : inp.market_open = true)
    (hpc : ctx.prior_close.isNone = false)
    (hto : ctx.today_open.isNone = false)
    (heod : ¬ inp.until_close ≤ EOD_FLATTEN_BUFFER_SECONDS)
    (harm : ctx.state = BotState.armed)
    (hbars : inp.bars.rows.isEmpty = false)
    (hlp : inp.latest_fetch = some lp)
    (hct : can_trade cfg trades = true)
    (hwin : inp.within_entry_window = true)
    (hsig : evaluate_entry cfg inp.bars lp (ctx.prior_close.getD 0)
      (ctx.today_open.getD 0) = some sig)
    (hqty : ¬ compute_shares cfg inp.equity lp ≤ 0) :
    (tick cfg ctx trades inp).submitted_entry = true ∧
    (inp.entry_fill = none →
      (tick cfg ctx trades inp).ctx.state = BotState.armed ∧
      (tick cfg ctx trades inp).trades_today = trades) ∧
    (∀ f, inp.entry_fill = some f →
      (tick cfg ctx trades inp).ctx.state = BotState.in_trade ∧
      (tick cfg ctx trades inp).trades_today = trades + 1 ∧
      (tick cfg ctx trades inp).ctx.entry_price
        = some (match f.filled_avg_price with | some p => p | none => lp) ∧
      (tick cfg ctx trades inp).ctx.direction = some sig.direction ∧
      (tick cfg ctx trades inp).ctx.trade_qty
        = compute_shares cfg inp.equity lp ∧
      0 < (tick cfg ctx trades inp).ctx.trade_qty) := by
  have hdr : dayReset ctx trades inp = (ctx, trades) := by
    unfold dayReset
    rw [if_neg (by simp [hday])]
  have hfg : fetchGap ctx inp = ctx := by
    unfold fetchGap
    rw [hpc, hto]
    rfl
  have hred : tick cfg ctx trades inp = tickArmed cfg ctx trades inp lp := by
    unfold tick
    dsimp only
    rw [hdr]
    dsimp only
    rw [if_neg (by simp [hopen]), hfg,
      if_neg (by simp [hpc, hto]),
      if_neg heod,
      if_neg (by simp [harm]),
      if_neg (by simp [harm]),
      if_neg (by simp [hbars])]
    simp only [hlp]
    rw [if_pos harm]
  have ha : tickArmed cfg ctx trades inp lp
      = (match inp.entry_fill with
         | none => ⟨ctx, trades, true, false, false⟩
         | some fill =>
           ⟨{ ctx with
              entry_price := some
                (match fill.filled_avg_price with
                 | some p => p
                 | none => lp),
              direction := some sig.direction,
              trade_qty := compute_shares cfg inp.equity lp,
              state := BotState.in_trade },
            record_trade trades, true, false, false⟩) := by
    unfold tickArmed
    rw [if_neg (by simp [hct]), if_neg (by simp [hwin])]
    simp only [hsig]
    try dsimp only
    rw [if_neg hqty]
  rw [hred, ha]
  rcases hef : inp.entry_fill with _ | f
  · refine ⟨rfl, fun _ => ⟨harm, rfl⟩, fun f hf => by simp at hf⟩
  · refine ⟨rfl, fun hc => by simp at hc, fun f' hf' => ?_⟩
    obtain rfl : f = f' := Option.some_inj.mp hf'
    refine ⟨rfl, rfl, rfl, rfl, rfl, ?_⟩
    try dsimp only
    omega

/-- C8 witness: a concrete `ARMED` cycle that reaches the submission and
whose entry order fails stays `ARMED` with `trades_today` unchanged. -/
theorem entry_fill_gates_recording_witness :
    (tick cfg0 armedCtx 0 entryInp).submitted_entry = true ∧
    (tick cfg0 armedCtx 0 entryInp).ctx.state = BotState.armed ∧
    (tick cfg0 armedCtx 0 entryInp).trades_today = 0 := by
  have hbands : compute_bands barsFlat100 cfg0.band_lookback cfg0.band_mult
      = some ⟨100, 0, 100, 100⟩ := by
    show compute_bands barsFlat100 2 1 = _
    have hm : sampleMean [(100 : ℝ), 100] = 100 := by
      unfold sampleMean
      norm_num
    have hv : sampleVar [(100 : ℝ), 100] = 0 := by
      unfold sampleVar
      rw [hm]
      norm_num
    unfold compute_bands
    rw [if_neg (by simp [barsFlat100])]
    dsimp only
    rw [if_neg (by norm_num)]
    rw [show barsFlat100.rows.map Bar.close = [(100 : ℝ), 100] from by
      simp [barsFlat100, mkBar]]
    simp [hm, hv]
  have hgap : compute_gap_pct 100 98 = -(1/50) := by
    unfold compute_gap_pct
    rw [if_neg (by norm_num)]
    norm_num
  have hsig : evaluate_entry cfg0 barsFlat100 100 100 98
      = some ⟨Direction.long, 100, -(1/50), 100⟩ := by
    unfold evaluate_entry
    dsimp only
    rw [hgap]
    rw [if_neg (by
      rw [abs_neg, abs_of_pos (by norm_num : (0:ℝ) < 1/50)]
      show ¬ ((1/50 : ℝ) < cfg0.gap_threshold)
      simp only [cfg0]
      norm_num)]
    simp only [hbands]
    rw [if_pos ⟨by norm_num, by norm_num⟩]
  have hqty : ¬ compute_shares cfg0 100000 100 ≤ 0 := by
    unfold compute_shares
    dsimp only
    rw [if_neg (by norm_num)]
    rw [if_neg (by
      show ¬ ((100 : ℝ) * cfg0.stop_pct ≤ 0)
      simp only [cfg0]
      norm_num)]
    have ha : (1 : ℤ) ≤ ⌊(100000 : ℝ) * cfg0.risk_pct / (100 * cfg0.stop_pct)⌋ := by
      apply Int.le_floor.mpr
      simp only [cfg0]
      norm_num
    have hb : (1 : ℤ) ≤ ⌊(100000 : ℝ) * 0.10 / 100⌋ := by
      apply Int.le_floor.mpr
      norm_num
    omega
  have h := entry_fill_gates_recording cfg0 armedCtx 0 entryInp 100
    ⟨Direction.long, 100, -(1/50), 100⟩ rfl rfl rfl rfl
    (by
      show ¬ (10000 : ℝ) ≤ EOD_FLATTEN_BUFFER_SECONDS
      unfold EOD_FLATTEN_BUFFER_SECONDS
      norm_num)
    rfl rfl rfl (by norm_num [can_trade, cfg0]) rfl hsig hqty
  exact ⟨h.1, (h.2.1 rfl).1, (h.2.1 rfl).2⟩

/-- A concrete `IN_TRADE` context: long 100 shares from 100, gap cached,
day 0. -/
noncomputable def inTradeCtx : Ctx :=
  ⟨BotState.in_trade, some 100, some Direction.long, 100, some 100,
   some 98, some 0⟩

/-- A same-day, market-open cycle input inside the end-of-day flatten
buffer (100 s to the close), with the exit order failing. -/
noncomputable def eodInp : TickIn :=
  ⟨0, true, none, none, 100, barsFlat100, some 90, false, 0, none, none⟩

/-- A same-day, market-open cycle input away from the close whose latest
price 90 trips the stop loss, with the exit order failing. -/
noncomputable def stopInp : TickIn :=
  ⟨0, true, none, none, 10000, barsFlat100, some 90, false, 0, none, none⟩

/-- C10: in the end-of-day flatten branch with an open position, the
cycle clears `entry_price`, `direction` and `trade_qty` and transitions
to `LOCKED` regardless of the exit-order submission result — the result
is never inspected (the outcome is independent of the `exit_fill` input)
— in contrast to the normal `IN_TRADE` exit path, which leaves the
position fields untouched when the submission fails. -/
theorem eod_flatten_ignores_fill (cfg : StrategyConfig) (ctx : Ctx)
    (trades : ℤ) (inp : TickIn)
    (hday : ctx.last_trading_day = some inp.today)
    (hopen : inp.market_open = true)
    (hpc : ctx.prior_close.isNone = false)
    (hto : ctx.today_open.isNone = false)
    (heod : inp.until_close ≤ EOD_FLATTEN_BUFFER_SECONDS)
    (hst : ctx.state = BotState.in_trade)
    (hdir : ctx.direction.isSome = true)
    (hep : ctx.entry_price.isSome = true) :
    (∀ f : Option Fill,
      tick cfg ctx trades { inp with exit_fill := f }
        = tick cfg ctx trades inp) ∧
    (tick cfg ctx trades inp).ctx.entry_price = none ∧
    (tick cfg ctx trades inp).ctx.direction = none ∧
    (tick cfg ctx trades inp).ctx.trade_qty = 0 ∧
    (tick cfg ctx trades inp).ctx.state = BotState.locked ∧
    (tick cfg ctx trades inp).submitted_exit = true ∧
    (∀ (inp' : TickIn) (lp : ℝ) (es : ExitSignal),
      ctx.last_trading_day = some inp'.today →
      inp'.market_open = true →
      ¬ inp'.until_close ≤ EOD_FLATTEN_BUFFER_SECONDS →
      inp'.bars.rows.isEmpty = false →
      inp'.latest_fetch = some lp →
      evaluate_exit cfg inp'.bars lp (ctx.entry_price.getD 0)
        (ctx.direction.getD Direction.long) = some es →
      inp'.exit_fill = none →
      (tick cfg ctx trades inp').ctx.entry_price = ctx.entry_price ∧
      (tick cfg ctx trades inp').ctx.direction = ctx.direction ∧
      (tick cfg ctx trades inp').ctx.trade_qty = ctx.trade_qty ∧
      (tick cfg ctx trades inp').ctx.state = BotState.in_trade ∧
      (tick cfg ctx trades inp').submitted_exit = true) := by
  have hredeod : ∀ inpx : TickIn, inpx.today = inp.today →
      inpx.market_open = true →
      inpx.until_close ≤ EOD_FLATTEN_BUFFER_SECONDS →
      tick cfg ctx trades inpx = tickEod ctx trades := by
    intro inpx htd hmo huc
    have hdrx : dayReset ctx trades inpx = (ctx, trades) := by
      unfold dayReset
      rw [if_neg (by simp [hday, htd])]
    have hfgx : fetchGap ctx inpx = ctx := by
      unfold fetchGap
      rw [hpc, hto]
      rfl
    unfold tick
    dsimp only
    rw [hdrx]
    dsimp only
    rw [if_neg (by simp [hmo]), hfgx,
      if_neg (by simp [hpc, hto]),
      if_pos huc]
  have hmain : tick cfg ctx trades inp = tickEod ctx trades :=
    hredeod inp rfl hopen heod
  have heodres : tickEod ctx trades
      = ⟨{ ctx with
            state := BotState.locked,
            entry_price := none,
            direction := none,
            trade_qty := 0 },
         trades, false, true, false⟩ := by
    unfold tickEod
    rw [if_pos ⟨hst, hdir⟩]
  refine ⟨fun f => ?_, ?_, ?_, ?_, ?_, ?_, ?_⟩
  · rw [hmain, hredeod { inp with exit_fill := f } rfl hopen heod]
  · rw [hmain, heodres]
  · rw [hmain, heodres]
  · rw [hmain, heodres]
  · rw [hmain, heodres]
  · rw [hmain, heodres]
  · intro inp' lp es hday' hopen' heod' hbars' hlp' hsx hfail
    have hdr' : dayReset ctx trades inp' = (ctx, trades) := by
      unfold dayReset
      rw [if_neg (by simp [hday'])]
    have hfg' : fetchGap ctx inp' = ctx := by
      unfold fetchGap
      rw [hpc, hto]
      rfl
    have hdn : ctx.direction.isNone = false := by
      rcases hd : ctx.direction with _ | d
      · rw [hd] at hdir
        simp at hdir
      · rfl
    have hen : ctx.entry_price.isNone = false := by
      rcases hd : ctx.entry_price with _ | p
      · rw [hd] at hep
        simp at hep
      · rfl
    have hred' : tick cfg ctx trades inp'
        = tickInTrade cfg ctx trades inp' lp := by
      unfold tick
      dsimp only
      rw [hdr']
      dsimp only
      rw [if_neg (by simp [hopen']), hfg',
        if_neg (by simp [hpc, hto]),
        if_neg heod',
        if_neg (by simp [hst]),
        if_neg (by simp [hst]),
        if_neg (by simp [hbars'])]
      simp only [hlp']
      rw [if_neg (by simp [hst]), if_pos hst]
    have hint : tickInTrade cfg ctx trades inp' lp
        = ⟨ctx, trades, false, true, false⟩ := by
      unfold tickInTrade
      rw [if_neg (by simp [hen, hdn])]
      simp only [hsx, hfail]
    rw [hred', hint]
    exact ⟨rfl, rfl, rfl, hst, rfl⟩

/-- C10 witness: a concrete end-of-day cycle on an open long position
clears the position and locks, with the result identical for a failed
and a filled exit order; the same context on a concrete normal stop-loss
cycle with a failed exit order keeps its position fields. -/
theorem eod_flatten_ignores_fill_witness :
    (tick cfg0 inTradeCtx 0 eodInp).ctx.state = BotState.locked ∧
    (tick cfg0 inTradeCtx 0 eodInp).ctx.entry_price = none ∧
    (tick cfg0 inTradeCtx 0 eodInp).ctx.direction = none ∧
    tick cfg0 inTradeCtx 0 { eodInp with exit_fill := some ⟨some 90⟩ }
      = tick cfg0 inTradeCtx 0 eodInp ∧
    (tick cfg0 inTradeCtx 0 stopInp).ctx.entry_price
      = inTradeCtx.entry_price ∧
    (tick cfg0 inTradeCtx 0 stopInp).ctx.state = BotState.in_trade ∧
    (tick cfg0 inTradeCtx 0 stopInp).submitted_exit = true := by
  have hsx : evaluate_exit cfg0 barsFlat100 90 100 Direction.long
      = some ⟨ExitReason.stop_loss, 90⟩ := by
    unfold evaluate_exit
    rw [if_neg (by simp)]
    rw [if_pos ⟨rfl, by
      show (90 : ℝ) ≤ 100 * (1 - cfg0.stop_pct)
      simp only [cfg0]
      norm_num⟩]
  have h := eod_flatten_ignores_fill cfg0 inTradeCtx 0 eodInp rfl rfl rfl rfl
    (by
      show (100 : ℝ) ≤ EOD_FLATTEN_BUFFER_SECONDS
      unfold EOD_FLATTEN_BUFFER_SECONDS
      norm_num)
    rfl rfl rfl
  have hc := h.2.2.2.2.2.2 stopInp 90 ⟨ExitReason.stop_loss, 90⟩ rfl rfl
    (by
      show ¬ (10000 : ℝ) ≤ EOD_FLATTEN_BUFFER_SECONDS
      unfold EOD_FLATTEN_BUFFER_SECONDS
      norm_num)
    rfl rfl hsx rfl
  exact ⟨h.2.2.2.2.1, h.2.1, h.2.2.1, h.1 (some ⟨some 90⟩), hc.1,
    hc.2.2.2.1, hc.2.2.2.2⟩

end Alpaca1
